import Mathlib

/-!
Shallow embedding of the schema-inference / code-generation engine of
YAML2Dataclass (`src/yaml2dataclass/generate_dataclass.py`).

Modelling conventions:
* Python values flowing through the generator are modelled by the inductive
  `Value` (map / sequence / scalar nodes).  Scalar payloads only matter to the
  generator through `type(v).__name__`, so the float payload is not recorded.
* Python `dict` is modelled as an insertion-ordered association list with
  unique keys (the spec's Map-node invariant).
* The `comment` / `description` metadata entries are modelled as strings, as
  the spec's FieldEntry data model declares them (`optional raw string`).
* Machine strings are Lean `String`s; Python's `\w` is modelled for ASCII as
  alphanumeric-or-underscore, and `str.strip()` as whitespace trimming.
* Fallible code (`raise ValueError`) is modelled with `Except String`.
-/

/-- Value-tree node: the generic parsed representation the generator walks. -/
inductive Value where
  | vstr : String → Value
  | vint : Int → Value
  | vbool : Bool → Value
  | vfloat : Value
  | vnone : Value
  | vlist : List Value → Value
  | vdict : List (String × Value) → Value

/-- Python `type(v).__name__` for the modelled runtime values. -/
def pyTypeName : Value → String
  | .vstr _ => "str"
  | .vint _ => "int"
  | .vbool _ => "bool"
  | .vfloat => "float"
  | .vnone => "NoneType"
  | .vlist _ => "list"
  | .vdict _ => "dict"

/-- Python `d.get(k)` on the association-list model of a dict. -/
def dictLookup : List (String × Value) → String → Option Value
  | [], _ => none
  | (k, v) :: rest, key => if k = key then some v else dictLookup rest key

/-- Extracts a string payload from an optional dict member (metadata fields
are strings in the spec's FieldEntry data model). -/
def strOf : Option Value → Option String
  | some (.vstr s) => some s
  | _ => none

/-- Python truthiness of an `Optional[str]`: `None` and `""` are falsy. -/
def optTruthy : Option String → Bool
  | some s => !s.isEmpty
  | none => false

/-- Structured type descriptor: `TypeAnnotation(generic_type, type_params)`. -/
structure TypeAnnotation where
  generic_type : String
  type_params : Option (List String)
deriving DecidableEq

/-- Python `sep.join(parts)`. -/
def pyJoin (sep : String) : List String → String
  | [] => ""
  | h :: t => t.foldl (fun acc x => acc ++ sep ++ x) h

/-- Python `s.split(sep)` for a one-character separator: splits at every
occurrence and keeps empty pieces. -/
def splitOnChar (sep : Char) : List Char → List (List Char)
  | [] => [[]]
  | c :: cs =>
    let r := splitOnChar sep cs
    if c = sep then [] :: r
    else
      match r with
      | h :: t => (c :: h) :: t
      | [] => [[c]]

/-- `TypeAnnotation.to_paramterized_type` (sic, the source's spelling):
renders `base[p1, p2]` when `type_params` is truthy, else just `base`. -/
def TypeAnnotation.to_paramterized_type (t : TypeAnnotation) : String :=
  match t.type_params with
  | some (p :: ps) => t.generic_type ++ "[" ++ pyJoin ", " (p :: ps) ++ "]"
  | _ => t.generic_type

/-- Wrapper for a raw key string (`Name` dataclass in the source). -/
structure Name where
  name : String
deriving DecidableEq

/-- Python `str.title()` restricted to ASCII: a letter is uppercased when the
previous character is not a letter, lowercased otherwise. -/
def titleCaseAux : List Char → Bool → List Char
  | [], _ => []
  | c :: cs, prevCased =>
    (if c.isAlpha then (if prevCased then c.toLower else c.toUpper) else c)
      :: titleCaseAux cs c.isAlpha

/-- Python `s.title()` on one underscore-free component. -/
def titleCase (s : String) : String :=
  String.mk (titleCaseAux s.data false)

/-- `Name.to_pascal_case`: `''.join(x.title() for x in self.name.split('_'))`. -/
def Name.to_pascal_case (n : Name) : String :=
  pyJoin "" ((splitOnChar '_' n.name.data).map fun cs => titleCase (String.mk cs))

/-- `Name.to_snake_case`: returns the raw key verbatim. -/
def Name.to_snake_case (n : Name) : String :=
  n.name

/-- Python `str.lower()` (ASCII). -/
def lowerStr (s : String) : String :=
  String.mk (s.data.map Char.toLower)

/-- Python `\w` for ASCII input: alphanumeric or underscore. -/
def isWordChar (c : Char) : Bool :=
  c.isAlphanum || c = '_'

/-- Drops the longest suffix of characters satisfying `p`. -/
def dropEndWhile (p : Char → Bool) (l : List Char) : List Char :=
  (l.reverse.dropWhile p).reverse

/-- Python two-sided `strip` over a character predicate. -/
def stripBoth (p : Char → Bool) (l : List Char) : List Char :=
  dropEndWhile p (l.dropWhile p)

/-- Python `[param.strip() for param in inner.split(',')]`. -/
def splitParams (inner : List Char) : List String :=
  (splitOnChar ',' inner).map fun cs => String.mk (stripBoth Char.isWhitespace cs)

/-- Semantics of the first `re.findall` hit of the source's pattern
`(\w+)\[([^\]]+)\]|\b(\w+)\b`, scanning left to right: at the first word-run
start, the parenthesised bracket alternative is tried first (greedy `\w+`
cannot backtrack into a successful `[`, and `[^\]]+` stops at the first `]`),
else the bare word run matches. -/
def scanMatch : List Char → Option (String × Option (List String))
  | [] => none
  | c :: cs =>
    if isWordChar c then
      let run := String.mk (List.takeWhile isWordChar (c :: cs))
      match List.dropWhile isWordChar (c :: cs) with
      | [] => some (run, none)
      | d :: rest2 =>
        if d = '[' then
          let inner := List.takeWhile (fun e => e ≠ ']') rest2
          let rest3 := List.dropWhile (fun e => e ≠ ']') rest2
          if inner ≠ [] ∧ rest3 ≠ [] then some (run, some (splitParams inner))
          else some (run, none)
        else some (run, none)
    else scanMatch cs

/-- Characters removed by Python `strip('# ')`. -/
def isHashSpace (c : Char) : Bool :=
  c = '#' || c = ' '

/-- The source's `value.strip('# ').strip()`. -/
def codeStrip (s : String) : String :=
  String.mk (stripBoth Char.isWhitespace (stripBoth isHashSpace s.data))

/-- `CommentTypeParser.parse`: empty/absent input yields the unset descriptor;
otherwise the stripped text is scanned, and no identifier-like token at all
raises `ValueError` (the spec's ParseError). -/
def CommentTypeParser.parse (value : Option String) : Except String TypeAnnotation :=
  match value with
  | none => Except.ok ⟨"", none⟩
  | some s =>
    if s.isEmpty then Except.ok ⟨"", none⟩
    else
      let t := codeStrip s
      match scanMatch t.data with
      | some (g, ps) => Except.ok ⟨g, ps⟩
      | none => Except.error ("Failed to parse type annotation: " ++ t)

/-- `ValueTypeParser.parse`: type descriptor inferred from the runtime value. -/
def ValueTypeParser.parse (v : Value) : TypeAnnotation :=
  ⟨pyTypeName v, none⟩

/-- Stripping as the spec words it for `resolveFromComment`: surrounding
whitespace and one leading marker character (`#`) are removed.  (The source
strips every leading and trailing `#`/space; the two differ only in junk
characters that the scan skips anyway, which the refinement theorem for the
comment resolver makes precise.) -/
def specStrip (s : String) : String :=
  match stripBoth Char.isWhitespace s.data with
  | c :: rest =>
    if c = '#' then String.mk (stripBoth Char.isWhitespace rest)
    else String.mk (c :: rest)
  | [] => String.mk []

/-- The spec's `resolveFromComment` contract, stated independently of the
source: empty/absent input gives the empty descriptor; otherwise the text
with a leading marker and surrounding whitespace stripped is scanned for the
two identifier patterns in priority order, the first match of either pattern
winning; no identifier-like token at all is a ParseError (`none`). -/
def resolveFromCommentSpec (raw : Option String) : Option TypeAnnotation :=
  match raw with
  | none => some ⟨"", none⟩
  | some s =>
    if s.isEmpty then some ⟨"", none⟩
    else
      match scanMatch (specStrip s).data with
      | some (g, ps) => some ⟨g, ps⟩
      | none => none

/-- The two imports every `DataclassBuilder` starts with. -/
def defaultImports : List String :=
  ["from dataclasses import dataclass",
   "from typing import Optional, List, Any, Union"]

/-- `DataclassBuilder` state: the Python `set[str]` of imports is modelled as
a list with membership-checked insertion (see `insertImport`); `build` sorts
it, so only its members matter. -/
structure DataclassBuilder where
  name : Name
  imports : List String
  parameters : List String
  docstring : Option String
deriving DecidableEq

/-- `DataclassBuilder.__init__`. -/
def DataclassBuilder.init (n : Name) : DataclassBuilder :=
  ⟨n, defaultImports, [], none⟩

/-- Set insertion on the list model of the import set. -/
def insertImport (s : List String) (i : String) : List String :=
  if i ∈ s then s else s ++ [i]

/-- `path.as_posix().replace('/', '.')`; the destination path is modelled as
its posix string. -/
def moduleOfPath (p : String) : String :=
  String.mk (p.data.map fun c => if c = '/' then '.' else c)

/-- `DataclassBuilder.add_import`. -/
def DataclassBuilder.add_import (b : DataclassBuilder) (path : String) (n : Name) :
    DataclassBuilder :=
  let imp := "from " ++ moduleOfPath path ++ "." ++ n.to_snake_case ++ " import " ++ n.to_pascal_case
  { b with imports := insertImport b.imports imp }

/-- `DataclassBuilder.add_parameter`: appends one rendered field line, with an
inline trailing comment when the description is truthy. -/
def DataclassBuilder.add_parameter (b : DataclassBuilder) (key : String)
    (ta : TypeAnnotation) (dsc : Option String) : DataclassBuilder :=
  let param := key ++ ": " ++ ta.to_paramterized_type
  let param := match dsc with
    | some d => if d.isEmpty then param else param ++ "  # " ++ d
    | none => param
  { b with parameters := b.parameters ++ [param] }

/-- Lexicographic order on character lists by code point, the order Python's
`sorted` uses on `str`. (Mathlib's `String` order is the same order, but its
core comparison does not reduce in the kernel, so the comparison is spelled
out here.) -/
def charListLe : List Char → List Char → Bool
  | [], _ => true
  | _ :: _, [] => false
  | a :: as, b :: bs => if a = b then charListLe as bs else decide (a.toNat < b.toNat)

/-- Python `s1 <= s2` on strings. -/
def strLe (a b : String) : Bool :=
  charListLe a.data b.data

/-- `DataclassBuilder.build`: sorted import block, blank line, decorator and
class header, optional docstring line, then the parameter block. -/
def DataclassBuilder.build (b : DataclassBuilder) : String :=
  let imports := pyJoin "\n" (List.insertionSort (fun x y => strLe x y = true) b.imports)
  let parameters := pyJoin "\n    " b.parameters
  let classDef := ["@dataclass", "class " ++ b.name.to_pascal_case ++ ":"]
  let classDef := match b.docstring with
    | some d => if d.isEmpty then classDef else classDef ++ ["    \"\"\"" ++ d ++ "\"\"\""]
    | none => classDef
  let classDef := classDef ++ ["    " ++ parameters]
  imports ++ "\n\n" ++ pyJoin "\n" classDef

/-- `DataclassGenerator._parse_field_metadata`: a dict containing a `"value"`
key is unwrapped into `(value, comment, description)`; everything else is a
bare value with no metadata. -/
def metaOf : Value → Value × Option String × Option String
  | .vdict l =>
    match dictLookup l "value" with
    | some w => (w, strOf (dictLookup l "comment"), strOf (dictLookup l "description"))
    | none => (.vdict l, none, none)
  | v => (v, none, none)

/-- Whether `self.handlers.get(type(value))` finds a handler (dict or list). -/
def isHandled : Value → Bool
  | .vdict _ => true
  | .vlist _ => true
  | _ => false

theorem sizeOf_dictLookup {l : List (String × Value)} {k : String} {v : Value}
    (h : dictLookup l k = some v) : sizeOf v < sizeOf l := by
  induction l with
  | nil => simp [dictLookup] at h
  | cons p rest ih =>
    obtain ⟨k', v'⟩ := p
    simp only [dictLookup] at h
    split at h
    · cases h
      simp only [List.cons.sizeOf_spec, Prod.mk.sizeOf_spec]
      omega
    · have := ih h
      simp only [List.cons.sizeOf_spec, Prod.mk.sizeOf_spec]
      omega

theorem sizeOf_metaOf (v : Value) : sizeOf (metaOf v).1 ≤ sizeOf v := by
  match v with
  | .vdict l =>
    simp only [metaOf]
    cases h : dictLookup l "value" with
    | none => simp
    | some w =>
      have := sizeOf_dictLookup h
      simp only [Value.vdict.sizeOf_spec]
      omega
  | .vstr s => simp [metaOf]
  | .vint i => simp [metaOf]
  | .vbool b => simp [metaOf]
  | .vfloat => simp [metaOf]
  | .vnone => simp [metaOf]
  | .vlist items => simp [metaOf]

mutual

/-- Dispatch of `_generate_dataclass`'s field loop on the runtime type of one
already-unwrapped field value (`DictValueHandler.handle`,
`ListValueHandler.handle`, or the scalar branch). `key` is the field's key,
`tc`/`dsc` the unwrapped comment and description, `b` the builder under
construction, and `bs` the generator's global `builders` list. -/
def handleValue (dest : String) (key : String) (v : Value) (tc : Option String)
    (dsc : Option String) (b : DataclassBuilder) (bs : List DataclassBuilder) :
    Except String (DataclassBuilder × List DataclassBuilder) :=
  match v with
  | Value.vdict l =>
    match genFields dest l (DataclassBuilder.init ⟨key⟩) bs with
    | Except.error e => Except.error e
    | Except.ok (nb, bs1) =>
      let b1 := b.add_import dest ⟨key⟩
      match (if optTruthy tc then CommentTypeParser.parse tc
             else Except.ok ⟨(Name.mk key).to_pascal_case, none⟩) with
      | Except.error e => Except.error e
      | Except.ok ta =>
        Except.ok (b1.add_parameter (Name.mk key).to_snake_case ta dsc, bs1 ++ [nb])
  | Value.vlist (Value.vdict l :: _) =>
    match genFields dest l (DataclassBuilder.init ⟨key⟩) bs with
    | Except.error e => Except.error e
    | Except.ok (nb, bs1) =>
      match (if optTruthy tc then CommentTypeParser.parse tc
             else Except.ok ⟨"list", some [(Name.mk key).to_pascal_case]⟩) with
      | Except.error e => Except.error e
      | Except.ok ta =>
        let nb1 := match ta.type_params with
          | some (p :: _) =>
            if optTruthy tc && (ta.generic_type == "list") then
              { nb with name := Name.mk (lowerStr p) }
            else nb
          | _ => nb
        let b1 := b.add_import dest nb1.name
        Except.ok (b1.add_parameter (Name.mk key).to_snake_case ta dsc, bs1 ++ [nb1])
  | Value.vlist items =>
    let itemType := match items with
      | [] => "Any"
      | v0 :: _ => pyTypeName v0
    match (match tc with
           | some _ => CommentTypeParser.parse tc
           | none => Except.ok ⟨"list", some [itemType]⟩) with
    | Except.error e => Except.error e
    | Except.ok ta =>
      Except.ok (b.add_parameter (Name.mk key).to_snake_case ta dsc, bs)
  | _ =>
    match (if optTruthy tc then CommentTypeParser.parse tc
           else Except.ok (ValueTypeParser.parse v)) with
    | Except.error e => Except.error e
    | Except.ok ta =>
      Except.ok (b.add_parameter (Name.mk key).to_snake_case ta dsc, bs)
termination_by sizeOf v
decreasing_by
  · simp only [Value.vdict.sizeOf_spec]
    omega
  · simp only [Value.vlist.sizeOf_spec, List.cons.sizeOf_spec, Value.vdict.sizeOf_spec]
    omega

/-- The field loop of `_generate_dataclass`: unwraps each entry's metadata and
dispatches, threading the builder under construction and the global builder
collection. -/
def genFields (dest : String) (entries : List (String × Value)) (b : DataclassBuilder)
    (bs : List DataclassBuilder) : Except String (DataclassBuilder × List DataclassBuilder) :=
  match entries with
  | [] => Except.ok (b, bs)
  | e :: rest =>
    let m := metaOf e.2
    match handleValue dest e.1 m.1 m.2.1 m.2.2 b bs with
    | Except.error er => Except.error er
    | Except.ok (b1, bs1) => genFields dest rest b1 bs1
termination_by sizeOf entries
decreasing_by
  · have h1 := sizeOf_metaOf e.2
    obtain ⟨k, r⟩ := e
    simp only [List.cons.sizeOf_spec, Prod.mk.sizeOf_spec]
    simp only at h1
    omega
  · simp only [List.cons.sizeOf_spec]
    omega

end

/-- Processing of one `(key, raw_value)` pair of `_generate_dataclass`'s field
loop: `_parse_field_metadata` unwrapping followed by the handler dispatch. -/
def stepEntry (dest : String) (entry : String × Value) (b : DataclassBuilder)
    (bs : List DataclassBuilder) : Except String (DataclassBuilder × List DataclassBuilder) :=
  let m := metaOf entry.2
  handleValue dest entry.1 m.1 m.2.1 m.2.2 b bs

/-- `DataclassGenerator._generate_dataclass` (without the Python leading
underscore): builds one record from a map node, starting from a fresh builder.
`bs` is the generator's global `builders` list at call time; the returned list
is that list extended with the nested builders registered during the walk. -/
def DataclassGenerator.generate_dataclass (dest : String) (baseName : Name)
    (data : List (String × Value)) (bs : List DataclassBuilder) :
    Except String (DataclassBuilder × List DataclassBuilder) :=
  genFields dest data (DataclassBuilder.init baseName) bs

/-- `DataclassGenerator.generate`, with file writing modelled as the returned
list of `(file path, serialized source)` units; the YAML reading boundary is
replaced by the already-parsed value tree `data`. On any error no unit is
produced. -/
def DataclassGenerator.generate (dest : String) (data : List (String × Value)) :
    Except String (List (String × String)) :=
  match DataclassGenerator.generate_dataclass dest ⟨"config"⟩ data [] with
  | Except.error e => Except.error e
  | Except.ok (root, bs) =>
    Except.ok ((bs ++ [root]).map fun b => (dest ++ "/" ++ b.name.to_snake_case ++ ".py", b.build))

/-! ### Concrete value trees used by the spec's worked examples -/

/-- The spec's nested-map example `{server: {host: "x", port: 1}}`. -/
def serverData : List (String × Value) :=
  [("server", Value.vdict [("host", Value.vstr "x"), ("port", Value.vint 1)])]

/-- The spec's comment-override example `{a: {value: 1, comment: "# str"}}`. -/
def commentOverrideData : List (String × Value) :=
  [("a", Value.vdict [("value", Value.vint 1), ("comment", Value.vstr "# str")])]

/-- A field whose comment is the spec's malformed annotation `"###"`. -/
def malformedData : List (String × Value) :=
  [("a", Value.vdict [("value", Value.vint 1), ("comment", Value.vstr "###")])]

/-- The spec's list-of-maps example: field `events`, comment `list[Event]`,
value `[{name: "n"}]`. -/
def eventsData : List (String × Value) :=
  [("events", Value.vdict [("value", Value.vlist [Value.vdict [("name", Value.vstr "n")]]),
    ("comment", Value.vstr "list[Event]")])]

/-- The spec's empty-list example `{tags: []}`. -/
def tagsData : List (String × Value) :=
  [("tags", Value.vlist [])]

/-- A list-of-maps field `cats` whose comment renames the element type to
`Dog`, separating annotation-driven renaming from trailing-character
singularization. -/
def catsData : List (String × Value) :=
  [("cats", Value.vdict [("value", Value.vlist [Value.vdict [("x", Value.vint 1)]]),
    ("comment", Value.vstr "list[Dog]")])]

/-- A metadata-shaped map carrying an extra key: `{a: {value: 1, extra: 2}}`. -/
def extraKeyData : List (String × Value) :=
  [("a", Value.vdict [("value", Value.vint 1), ("extra", Value.vint 2)])]

/-! ### Order lemmas for the import sort -/

theorem charToNat_inj {a b : Char} (h : a.toNat = b.toNat) : a = b := by
  have hv : a.val = b.val := by
    unfold Char.toNat at h
    exact UInt32.toNat.inj h
  exact Char.eq_of_val_eq hv

theorem charListLe_total : ∀ as bs : List Char, charListLe as bs = true ∨ charListLe bs as = true := by
  intro as
  induction as with
  | nil => intro bs; left; simp [charListLe]
  | cons a as ih =>
    intro bs
    cases bs with
    | nil => right; simp [charListLe]
    | cons b bs =>
      by_cases hab : a = b
      · subst hab
        simpa [charListLe] using ih bs
      · have hn : a.toNat ≠ b.toNat := fun h => hab (charToNat_inj h)
        have hba : ¬ b = a := fun h => hab h.symm
        simp only [charListLe, if_neg hab, if_neg hba, decide_eq_true_eq]
        omega

theorem charListLe_trans : ∀ as bs cs : List Char,
    charListLe as bs = true → charListLe bs cs = true → charListLe as cs = true := by
  intro as
  induction as with
  | nil => intro bs cs _ _; simp [charListLe]
  | cons a as ih =>
    intro bs cs h1 h2
    cases bs with
    | nil => simp [charListLe] at h1
    | cons b bs =>
      cases cs with
      | nil => simp [charListLe] at h2
      | cons c cs =>
        by_cases hab : a = b <;> by_cases hbc : b = c
        · subst hab; subst hbc
          simp only [charListLe, if_pos rfl] at h1 h2 ⊢
          exact ih _ _ h1 h2
        · subst hab
          simp only [charListLe, if_pos rfl, if_neg hbc] at h2 ⊢
          exact h2
        · subst hbc
          simp only [charListLe, if_neg hab, if_pos rfl] at h1 ⊢
          exact h1
        · simp only [charListLe, if_neg hab, if_neg hbc, decide_eq_true_eq] at h1 h2
          have hac : ¬ a = c := by
            intro h
            subst h
            omega
          simp only [charListLe, if_neg hac, decide_eq_true_eq]
          omega

theorem charListLe_antisymm : ∀ as bs : List Char,
    charListLe as bs = true → charListLe bs as = true → as = bs := by
  intro as
  induction as with
  | nil =>
    intro bs _ h2
    cases bs with
    | nil => rfl
    | cons b bs => simp [charListLe] at h2
  | cons a as ih =>
    intro bs h1 h2
    cases bs with
    | nil => simp [charListLe] at h1
    | cons b bs =>
      by_cases hab : a = b
      · subst hab
        simp only [charListLe, if_pos rfl] at h1 h2
        rw [ih _ h1 h2]
      · have hba : ¬ b = a := fun h => hab h.symm
        simp only [charListLe, if_neg hab, if_neg hba, decide_eq_true_eq] at h1 h2
        omega

instance : IsTotal String fun a b => strLe a b = true :=
  ⟨fun a b => charListLe_total a.data b.data⟩

instance : IsTrans String fun a b => strLe a b = true :=
  ⟨fun a b c => charListLe_trans a.data b.data c.data⟩

instance : IsAntisymm String fun a b => strLe a b = true := by
  refine ⟨fun a b h1 h2 => ?_⟩
  cases a with
  | mk da =>
    cases b with
    | mk db =>
      rw [charListLe_antisymm da db h1 h2]

/-! ### Scan invariance under stripped junk characters -/

theorem scanMatch_cons_junk {c : Char} (h : isWordChar c = false) (l : List Char) :
    scanMatch (c :: l) = scanMatch l := by
  simp [scanMatch, h]

theorem scanMatch_prefix {pre : List Char} (h : ∀ c ∈ pre, isWordChar c = false) (l : List Char) :
    scanMatch (pre ++ l) = scanMatch l := by
  induction pre with
  | nil => rfl
  | cons c pre ih =>
    rw [List.cons_append, scanMatch_cons_junk (h c (by simp)) (pre ++ l)]
    exact ih fun d hd => h d (by simp [hd])

theorem takeWhile_append_junk {p : Char → Bool} {ys : List Char}
    (h : ∀ c ∈ ys, p c = false) (xs : List Char) :
    (xs ++ ys).takeWhile p = xs.takeWhile p := by
  induction xs with
  | nil =>
    cases ys with
    | nil => rfl
    | cons y t => simp [List.takeWhile, h y (by simp)]
  | cons x xs ih =>
    simp only [List.cons_append, List.takeWhile]
    cases p x <;> simp [ih]

theorem dropWhile_append_junk {p : Char → Bool} {ys : List Char}
    (h : ∀ c ∈ ys, p c = false) (xs : List Char) :
    (xs ++ ys).dropWhile p = xs.dropWhile p ++ ys := by
  induction xs with
  | nil =>
    cases ys with
    | nil => rfl
    | cons y t => simp [List.dropWhile, h y (by simp)]
  | cons x xs ih =>
    simp only [List.cons_append, List.dropWhile]
    cases p x <;> simp [ih]

theorem dropWhile_head_false {p : Char → Bool} : ∀ {xs : List Char} {d : Char} {t : List Char},
    xs.dropWhile p = d :: t → p d = false := by
  intro xs
  induction xs with
  | nil => intro d t h; simp [List.dropWhile] at h
  | cons x xs ih =>
    intro d t h
    simp only [List.dropWhile] at h
    cases hp : p x with
    | true => rw [hp] at h; exact ih h
    | false => rw [hp] at h; cases h; exact hp

theorem dropWhile_eq_nil_of_all {p : Char → Bool} : ∀ {xs : List Char},
    (∀ c ∈ xs, p c = true) → xs.dropWhile p = [] := by
  intro xs
  induction xs with
  | nil => intro _; rfl
  | cons x xs ih =>
    intro h
    simp only [List.dropWhile, h x (by simp)]
    exact ih fun c hc => h c (by simp [hc])

theorem all_of_dropWhile_eq_nil {p : Char → Bool} : ∀ {xs : List Char},
    xs.dropWhile p = [] → ∀ c ∈ xs, p c = true := by
  intro xs
  induction xs with
  | nil => intro _ c hc; cases hc
  | cons x xs ih =>
    intro h c hc
    simp only [List.dropWhile] at h
    cases hp : p x with
    | false => rw [hp] at h; cases h
    | true =>
      rw [hp] at h
      rcases List.mem_cons.mp hc with rfl | hc
      · exact hp
      · exact ih h c hc

theorem takeWhile_append_stop {p : Char → Bool} : ∀ {xs : List Char},
    ¬ (∀ c ∈ xs, p c = true) → ∀ ys,
    (xs ++ ys).takeWhile p = xs.takeWhile p ∧ (xs ++ ys).dropWhile p = xs.dropWhile p ++ ys := by
  intro xs
  induction xs with
  | nil => intro h; exact absurd (by simp) h
  | cons x xs ih =>
    intro h ys
    cases hp : p x with
    | false => simp [List.takeWhile, List.dropWhile, hp]
    | true =>
      have hx : ¬ (∀ c ∈ xs, p c = true) := by
        intro hall
        exact h fun c hc => by
          rcases List.mem_cons.mp hc with rfl | hc
          · exact hp
          · exact hall c hc
      have := ih hx ys
      simp [List.takeWhile, List.dropWhile, hp, this.1, this.2]

theorem scanMatch_suffix {junk : List Char}
    (hj : ∀ c ∈ junk, isWordChar c = false ∧ c ≠ '[' ∧ c ≠ ']') :
    ∀ l : List Char, scanMatch (l ++ junk) = scanMatch l := by
  intro l
  induction l with
  | nil =>
    simpa using scanMatch_prefix (fun c hc => (hj c hc).1) []
  | cons c l ih =>
    cases hw : isWordChar c with
    | false =>
      rw [List.cons_append, scanMatch_cons_junk hw, scanMatch_cons_junk hw]
      exact ih
    | true =>
      have hjw : ∀ d ∈ junk, isWordChar d = false := fun d hd => (hj d hd).1
      have htw := takeWhile_append_junk hjw (c :: l)
      have hdw := dropWhile_append_junk hjw (c :: l)
      simp only [List.cons_append] at htw hdw
      simp only [scanMatch, hw, if_true, List.cons_append, List.append_eq]
      rw [htw, hdw]
      rcases hrest : List.dropWhile isWordChar (c :: l) with _ | ⟨d, rest2⟩
      · cases hJ : junk with
        | nil => rfl
        | cons j t =>
          have hdj : ¬ j = '[' := by
            have := (hj j (by rw [hJ]; exact List.mem_cons_self j t)).2.1
            exact this
          simp [hdj]
      · simp only [List.cons_append]
        by_cases hd : d = '['
        · subst hd
          simp only [if_pos rfl]
          by_cases hall : ∀ e ∈ rest2, e ≠ ']'
          · have h2 : ∀ e ∈ rest2 ++ junk, (fun e => decide (e ≠ ']')) e = true := by
              intro e he
              rcases List.mem_append.mp he with he | he
              · simpa using hall e he
              · simpa using (hj e he).2.2
            have h1 : ∀ e ∈ rest2, (fun e => decide (e ≠ ']')) e = true := by
              intro e he
              simpa using hall e he
            rw [dropWhile_eq_nil_of_all h1, dropWhile_eq_nil_of_all h2]
            simp
          · have hstop := takeWhile_append_stop (p := fun e => decide (e ≠ ']'))
              (by
                intro hcontra
                exact hall fun e he => by simpa using hcontra e he) junk
            rw [hstop.1, hstop.2]
            have hne : List.dropWhile (fun e => decide (e ≠ ']')) rest2 ≠ [] := by
              intro hnil
              apply hall
              intro e he
              simpa using all_of_dropWhile_eq_nil hnil e he
            have hne2 : List.dropWhile (fun e => decide (e ≠ ']')) rest2 ++ junk ≠ [] :=
              fun hc => hne (List.append_eq_nil.mp hc).1
            have hiff : (List.takeWhile (fun e => decide (e ≠ ']')) rest2 ≠ [] ∧
                List.dropWhile (fun e => decide (e ≠ ']')) rest2 ++ junk ≠ []) ↔
                (List.takeWhile (fun e => decide (e ≠ ']')) rest2 ≠ [] ∧
                List.dropWhile (fun e => decide (e ≠ ']')) rest2 ≠ []) := by
              constructor
              · rintro ⟨h1, _⟩
                exact ⟨h1, hne⟩
              · rintro ⟨h1, _⟩
                exact ⟨h1, hne2⟩
            simp only [if_true]
            exact if_congr hiff rfl rfl
        · simp [hd]

theorem mem_takeWhile_sat {p : Char → Bool} : ∀ {xs : List Char} {c : Char},
    c ∈ xs.takeWhile p → p c = true := by
  intro xs
  induction xs with
  | nil => intro c hc; cases hc
  | cons x xs ih =>
    intro c hc
    simp only [List.takeWhile] at hc
    cases hp : p x with
    | false => rw [hp] at hc; cases hc
    | true =>
      rw [hp] at hc
      rcases List.mem_cons.mp hc with rfl | hc
      · exact hp
      · exact ih hc

theorem dropEndWhile_decomp (p : Char → Bool) (m : List Char) :
    ∃ suf, m = dropEndWhile p m ++ suf ∧ ∀ c ∈ suf, p c = true := by
  refine ⟨(m.reverse.takeWhile p).reverse, ?_, ?_⟩
  · conv_lhs => rw [← m.reverse_reverse, ← List.takeWhile_append_dropWhile (p := p) (l := m.reverse)]
    rw [List.reverse_append]
    rfl
  · intro c hc
    exact mem_takeWhile_sat (List.mem_reverse.mp hc)

theorem stripBoth_decomp (p : Char → Bool) (l : List Char) :
    ∃ pre suf, l = pre ++ stripBoth p l ++ suf ∧
      (∀ c ∈ pre, p c = true) ∧ (∀ c ∈ suf, p c = true) := by
  obtain ⟨suf, hm, hsuf⟩ := dropEndWhile_decomp p (l.dropWhile p)
  refine ⟨l.takeWhile p, suf, ?_, fun c hc => mem_takeWhile_sat hc, hsuf⟩
  conv_lhs => rw [← List.takeWhile_append_dropWhile (p := p) (l := l), hm]
  rw [List.append_assoc]
  rfl

theorem scanMatch_stripBoth {p : Char → Bool}
    (hp : ∀ c, p c = true → isWordChar c = false ∧ c ≠ '[' ∧ c ≠ ']') (l : List Char) :
    scanMatch (stripBoth p l) = scanMatch l := by
  obtain ⟨pre, suf, hdecomp, hpre, hsuf⟩ := stripBoth_decomp p l
  have h1 : scanMatch (stripBoth p l ++ suf) = scanMatch (stripBoth p l) :=
    scanMatch_suffix (fun c hc => hp c (hsuf c hc)) _
  have h2 : scanMatch (pre ++ (stripBoth p l ++ suf)) = scanMatch (stripBoth p l ++ suf) :=
    scanMatch_prefix (fun c hc => (hp c (hpre c hc)).1) _
  rw [← h1, ← h2, ← List.append_assoc, ← hdecomp]

theorem ws_junk : ∀ c : Char, c.isWhitespace = true → isWordChar c = false ∧ c ≠ '[' ∧ c ≠ ']' := by
  intro c hc
  simp only [Char.isWhitespace, Bool.or_eq_true, decide_eq_true_eq] at hc
  rcases hc with ((rfl | rfl) | rfl) | rfl <;> exact ⟨by decide, by decide, by decide⟩

theorem hs_junk : ∀ c : Char, isHashSpace c = true → isWordChar c = false ∧ c ≠ '[' ∧ c ≠ ']' := by
  intro c hc
  simp only [isHashSpace, Bool.or_eq_true, decide_eq_true_eq] at hc
  rcases hc with rfl | rfl <;> exact ⟨by decide, by decide, by decide⟩

theorem scanMatch_codeStrip (s : String) : scanMatch (codeStrip s).data = scanMatch s.data := by
  show scanMatch (stripBoth Char.isWhitespace (stripBoth isHashSpace s.data)) = scanMatch s.data
  rw [scanMatch_stripBoth ws_junk, scanMatch_stripBoth hs_junk]

theorem scanMatch_specStrip (s : String) : scanMatch (specStrip s).data = scanMatch s.data := by
  have hws := scanMatch_stripBoth ws_junk s.data
  unfold specStrip
  cases ht : stripBoth Char.isWhitespace s.data with
  | nil =>
    rw [ht] at hws
    exact hws
  | cons c rest =>
    rw [ht] at hws
    by_cases hc : c = '#'
    · subst hc
      show scanMatch ((if ('#' : Char) = '#' then String.mk (stripBoth Char.isWhitespace rest)
        else String.mk ('#' :: rest))).data = scanMatch s.data
      rw [if_pos rfl]
      show scanMatch (stripBoth Char.isWhitespace rest) = scanMatch s.data
      rw [scanMatch_stripBoth ws_junk, ← hws, scanMatch_cons_junk (by decide)]
    · show scanMatch ((if c = '#' then String.mk (stripBoth Char.isWhitespace rest)
        else String.mk (c :: rest))).data = scanMatch s.data
      rw [if_neg hc]
      exact hws

theorem parse_toOption_eq_spec (o : Option String) :
    (CommentTypeParser.parse o).toOption = resolveFromCommentSpec o := by
  cases o with
  | none => rfl
  | some s =>
    by_cases hemp : s.isEmpty
    · simp [CommentTypeParser.parse, resolveFromCommentSpec, hemp, Except.toOption]
    · simp only [CommentTypeParser.parse, resolveFromCommentSpec, if_neg hemp]
      rw [scanMatch_codeStrip, scanMatch_specStrip]
      cases hscan : scanMatch s.data with
      | none => rfl
      | some gp =>
        obtain ⟨g, ps⟩ := gp
        rfl

/-! ### Generator equations and shape lemmas -/

theorem genFields_nil (dest : String) (b : DataclassBuilder) (bs : List DataclassBuilder) :
    genFields dest [] b bs = Except.ok (b, bs) := by
  simp [genFields]

theorem genFields_cons (dest : String) (e : String × Value) (rest : List (String × Value))
    (b : DataclassBuilder) (bs : List DataclassBuilder) :
    genFields dest (e :: rest) b bs =
      match stepEntry dest e b bs with
      | Except.error er => Except.error er
      | Except.ok (b1, bs1) => genFields dest rest b1 bs1 := by
  simp only [genFields, stepEntry]

theorem generate_dataclass_eq (dest : String) (n : Name) (data : List (String × Value))
    (bs : List DataclassBuilder) :
    DataclassGenerator.generate_dataclass dest n data bs =
      genFields dest data (DataclassBuilder.init n) bs := rfl

theorem genFields_append (dest : String) : ∀ (l1 l2 : List (String × Value))
    (b : DataclassBuilder) (bs : List DataclassBuilder),
    genFields dest (l1 ++ l2) b bs =
      match genFields dest l1 b bs with
      | Except.error e => Except.error e
      | Except.ok (b1, bs1) => genFields dest l2 b1 bs1 := by
  intro l1
  induction l1 with
  | nil =>
    intro l2 b bs
    rw [List.nil_append, genFields_nil]
  | cons e l1 ih =>
    intro l2 b bs
    rw [List.cons_append, genFields_cons, genFields_cons]
    cases stepEntry dest e b bs with
    | error er => rfl
    | ok p =>
      obtain ⟨b1, bs1⟩ := p
      exact ih l2 b1 bs1

theorem add_parameter_shape (b : DataclassBuilder) (key : String) (ta : TypeAnnotation)
    (dsc : Option String) :
    (b.add_parameter key ta dsc).name = b.name ∧
    (b.add_parameter key ta dsc).docstring = b.docstring ∧
    (b.add_parameter key ta dsc).imports = b.imports := by
  simp [DataclassBuilder.add_parameter]

theorem add_import_shape (b : DataclassBuilder) (path : String) (n : Name) :
    (b.add_import path n).name = b.name ∧
    (b.add_import path n).docstring = b.docstring ∧
    (b.add_import path n).parameters = b.parameters := by
  simp [DataclassBuilder.add_import]

theorem handleValue_ok_shape {dest key : String} {v : Value} {tc dsc : Option String}
    {b : DataclassBuilder} {bs : List DataclassBuilder} {b1 : DataclassBuilder}
    {bs1 : List DataclassBuilder}
    (h : handleValue dest key v tc dsc b bs = Except.ok (b1, bs1)) :
    b1.name = b.name ∧ b1.docstring = b.docstring := by
  rw [handleValue.eq_def] at h
  repeat' split at h
  all_goals cases h
  all_goals simp [DataclassBuilder.add_parameter, DataclassBuilder.add_import]

theorem genFields_name {dest : String} : ∀ {entries : List (String × Value)}
    {b : DataclassBuilder} {bs : List DataclassBuilder} {b1 : DataclassBuilder}
    {bs1 : List DataclassBuilder},
    genFields dest entries b bs = Except.ok (b1, bs1) →
    b1.name = b.name ∧ b1.docstring = b.docstring := by
  intro entries
  induction entries with
  | nil =>
    intro b bs b1 bs1 h
    rw [genFields_nil] at h
    cases h
    exact ⟨rfl, rfl⟩
  | cons e rest ih =>
    intro b bs b1 bs1 h
    rw [genFields_cons] at h
    cases hs : stepEntry dest e b bs with
    | error er => rw [hs] at h; cases h
    | ok p =>
      obtain ⟨bm, bsm⟩ := p
      rw [hs] at h
      have h1 := handleValue_ok_shape hs
      have h2 := ih h
      exact ⟨h2.1.trans h1.1, h2.2.trans h1.2⟩

theorem generate_dataclass_name {dest : String} {n : Name} {data : List (String × Value)}
    {bs : List DataclassBuilder} {b1 : DataclassBuilder} {bs1 : List DataclassBuilder}
    (h : DataclassGenerator.generate_dataclass dest n data bs = Except.ok (b1, bs1)) :
    b1.name = n ∧ b1.docstring = none := by
  rw [generate_dataclass_eq] at h
  have := genFields_name h
  simpa [DataclassBuilder.init] using this

theorem str_append_assoc (a b c : String) : a ++ b ++ c = a ++ (b ++ c) := by
  cases a with
  | mk x =>
    cases b with
    | mk y =>
      cases c with
      | mk z =>
        show String.mk (x ++ y ++ z) = String.mk (x ++ (y ++ z))
        rw [List.append_assoc]

/-! ### Concrete evaluations of the worked examples

The generator is compiled by well-founded recursion, so concrete runs are
evaluated step by step through the equation lemmas, keeping every
intermediate term small. -/

theorem step_server_host : stepEntry "src/config" ("host", Value.vstr "x")
    (DataclassBuilder.init ⟨"server"⟩) [] =
    Except.ok (⟨⟨"server"⟩, defaultImports, ["host: str"], none⟩, []) := by
  show handleValue "src/config" "host" (Value.vstr "x") none none
    (DataclassBuilder.init ⟨"server"⟩) [] = _
  rw [handleValue.eq_6 "src/config" "host" (Value.vstr "x") none none
    (DataclassBuilder.init ⟨"server"⟩) []
    (fun l h => by cases h) (fun l t h => by cases h) (fun i h => by cases h)]
  rfl

theorem step_server_port : stepEntry "src/config" ("port", Value.vint 1)
    (⟨⟨"server"⟩, defaultImports, ["host: str"], none⟩ : DataclassBuilder) [] =
    Except.ok (⟨⟨"server"⟩, defaultImports, ["host: str", "port: int"], none⟩, []) := by
  show handleValue "src/config" "port" (Value.vint 1) none none
    (⟨⟨"server"⟩, defaultImports, ["host: str"], none⟩ : DataclassBuilder) [] = _
  rw [handleValue.eq_6 "src/config" "port" (Value.vint 1) none none
    (⟨⟨"server"⟩, defaultImports, ["host: str"], none⟩ : DataclassBuilder) []
    (fun l h => by cases h) (fun l t h => by cases h) (fun i h => by cases h)]
  rfl

theorem gen_server_inner :
    genFields "src/config" [("host", Value.vstr "x"), ("port", Value.vint 1)]
    (DataclassBuilder.init ⟨"server"⟩) [] =
    Except.ok (⟨⟨"server"⟩, defaultImports, ["host: str", "port: int"], none⟩, []) := by
  rw [genFields_cons, step_server_host]
  show genFields "src/config" [("port", Value.vint 1)]
    (⟨⟨"server"⟩, defaultImports, ["host: str"], none⟩ : DataclassBuilder) [] = _
  rw [genFields_cons, step_server_port]
  exact genFields_nil _ _ _

theorem step_server_field : stepEntry "src/config"
    ("server", Value.vdict [("host", Value.vstr "x"), ("port", Value.vint 1)])
    (DataclassBuilder.init ⟨"config"⟩) [] =
    Except.ok (⟨⟨"config"⟩, defaultImports ++ ["from src.config.server import Server"],
      ["server: Server"], none⟩,
      [⟨⟨"server"⟩, defaultImports, ["host: str", "port: int"], none⟩]) := by
  show handleValue "src/config" "server"
    (Value.vdict [("host", Value.vstr "x"), ("port", Value.vint 1)]) none none
    (DataclassBuilder.init ⟨"config"⟩) [] = _
  rw [handleValue.eq_1, gen_server_inner]
  rfl

theorem run_serverData :
    DataclassGenerator.generate_dataclass "src/config" ⟨"config"⟩ serverData [] =
      Except.ok (⟨⟨"config"⟩, defaultImports ++ ["from src.config.server import Server"],
        ["server: Server"], none⟩,
        [⟨⟨"server"⟩, defaultImports, ["host: str", "port: int"], none⟩]) := by
  rw [generate_dataclass_eq]
  show genFields "src/config"
    [("server", Value.vdict [("host", Value.vstr "x"), ("port", Value.vint 1)])]
    (DataclassBuilder.init ⟨"config"⟩) [] = _
  rw [genFields_cons, step_server_field]
  exact genFields_nil _ _ _

theorem step_comment_a : stepEntry "src/config"
    ("a", Value.vdict [("value", Value.vint 1), ("comment", Value.vstr "# str")])
    (DataclassBuilder.init ⟨"config"⟩) [] =
    Except.ok (⟨⟨"config"⟩, defaultImports, ["a: str"], none⟩, []) := by
  show handleValue "src/config" "a" (Value.vint 1) (some "# str") none
    (DataclassBuilder.init ⟨"config"⟩) [] = _
  rw [handleValue.eq_6 "src/config" "a" (Value.vint 1) (some "# str") none
    (DataclassBuilder.init ⟨"config"⟩) []
    (fun l h => by cases h) (fun l t h => by cases h) (fun i h => by cases h)]
  rfl

theorem run_commentOverrideData :
    DataclassGenerator.generate_dataclass "src/config" ⟨"config"⟩ commentOverrideData [] =
      Except.ok (⟨⟨"config"⟩, defaultImports, ["a: str"], none⟩, []) := by
  rw [generate_dataclass_eq]
  show genFields "src/config"
    [("a", Value.vdict [("value", Value.vint 1), ("comment", Value.vstr "# str")])]
    (DataclassBuilder.init ⟨"config"⟩) [] = _
  rw [genFields_cons, step_comment_a]
  exact genFields_nil _ _ _

theorem step_malformed_a : stepEntry "src/config"
    ("a", Value.vdict [("value", Value.vint 1), ("comment", Value.vstr "###")])
    (DataclassBuilder.init ⟨"config"⟩) [] =
    Except.error "Failed to parse type annotation: " := by
  show handleValue "src/config" "a" (Value.vint 1) (some "###") none
    (DataclassBuilder.init ⟨"config"⟩) [] = _
  rw [handleValue.eq_6 "src/config" "a" (Value.vint 1) (some "###") none
    (DataclassBuilder.init ⟨"config"⟩) []
    (fun l h => by cases h) (fun l t h => by cases h) (fun i h => by cases h)]
  rfl

theorem run_malformedData :
    DataclassGenerator.generate_dataclass "src/config" ⟨"config"⟩ malformedData [] =
      Except.error "Failed to parse type annotation: " := by
  rw [generate_dataclass_eq]
  show genFields "src/config"
    [("a", Value.vdict [("value", Value.vint 1), ("comment", Value.vstr "###")])]
    (DataclassBuilder.init ⟨"config"⟩) [] = _
  rw [genFields_cons, step_malformed_a]

theorem step_events_name : stepEntry "src/config" ("name", Value.vstr "n")
    (DataclassBuilder.init ⟨"events"⟩) [] =
    Except.ok (⟨⟨"events"⟩, defaultImports, ["name: str"], none⟩, []) := by
  show handleValue "src/config" "name" (Value.vstr "n") none none
    (DataclassBuilder.init ⟨"events"⟩) [] = _
  rw [handleValue.eq_6 "src/config" "name" (Value.vstr "n") none none
    (DataclassBuilder.init ⟨"events"⟩) []
    (fun l h => by cases h) (fun l t h => by cases h) (fun i h => by cases h)]
  rfl

theorem gen_events_inner : genFields "src/config" [("name", Value.vstr "n")]
    (DataclassBuilder.init ⟨"events"⟩) [] =
    Except.ok (⟨⟨"events"⟩, defaultImports, ["name: str"], none⟩, []) := by
  rw [genFields_cons, step_events_name]
  exact genFields_nil _ _ _

theorem step_events_field : stepEntry "src/config"
    ("events", Value.vdict [("value", Value.vlist [Value.vdict [("name", Value.vstr "n")]]),
      ("comment", Value.vstr "list[Event]")])
    (DataclassBuilder.init ⟨"config"⟩) [] =
    Except.ok (⟨⟨"config"⟩, defaultImports ++ ["from src.config.event import Event"],
      ["events: list[Event]"], none⟩,
      [⟨⟨"event"⟩, defaultImports, ["name: str"], none⟩]) := by
  show handleValue "src/config" "events"
    (Value.vlist [Value.vdict [("name", Value.vstr "n")]]) (some "list[Event]") none
    (DataclassBuilder.init ⟨"config"⟩) [] = _
  rw [handleValue.eq_2, gen_events_inner]
  rfl

theorem run_eventsData :
    DataclassGenerator.generate_dataclass "src/config" ⟨"config"⟩ eventsData [] =
      Except.ok (⟨⟨"config"⟩, defaultImports ++ ["from src.config.event import Event"],
        ["events: list[Event]"], none⟩,
        [⟨⟨"event"⟩, defaultImports, ["name: str"], none⟩]) := by
  rw [generate_dataclass_eq]
  show genFields "src/config"
    [("events", Value.vdict [("value", Value.vlist [Value.vdict [("name", Value.vstr "n")]]),
      ("comment", Value.vstr "list[Event]")])]
    (DataclassBuilder.init ⟨"config"⟩) [] = _
  rw [genFields_cons, step_events_field]
  exact genFields_nil _ _ _

theorem step_tags_field : stepEntry "src/config" ("tags", Value.vlist [])
    (DataclassBuilder.init ⟨"config"⟩) [] =
    Except.ok (⟨⟨"config"⟩, defaultImports, ["tags: list[Any]"], none⟩, []) := by
  show handleValue "src/config" "tags" (Value.vlist []) none none
    (DataclassBuilder.init ⟨"config"⟩) [] = _
  rw [handleValue.eq_4]
  rfl

theorem run_tagsData :
    DataclassGenerator.generate_dataclass "src/config" ⟨"config"⟩ tagsData [] =
      Except.ok (⟨⟨"config"⟩, defaultImports, ["tags: list[Any]"], none⟩, []) := by
  rw [generate_dataclass_eq]
  show genFields "src/config" [("tags", Value.vlist [])]
    (DataclassBuilder.init ⟨"config"⟩) [] = _
  rw [genFields_cons, step_tags_field]
  exact genFields_nil _ _ _

theorem step_cats_x : stepEntry "src/config" ("x", Value.vint 1)
    (DataclassBuilder.init ⟨"cats"⟩) [] =
    Except.ok (⟨⟨"cats"⟩, defaultImports, ["x: int"], none⟩, []) := by
  show handleValue "src/config" "x" (Value.vint 1) none none
    (DataclassBuilder.init ⟨"cats"⟩) [] = _
  rw [handleValue.eq_6 "src/config" "x" (Value.vint 1) none none
    (DataclassBuilder.init ⟨"cats"⟩) []
    (fun l h => by cases h) (fun l t h => by cases h) (fun i h => by cases h)]
  rfl

theorem gen_cats_inner : genFields "src/config" [("x", Value.vint 1)]
    (DataclassBuilder.init ⟨"cats"⟩) [] =
    Except.ok (⟨⟨"cats"⟩, defaultImports, ["x: int"], none⟩, []) := by
  rw [genFields_cons, step_cats_x]
  exact genFields_nil _ _ _

theorem step_cats_field : stepEntry "src/config"
    ("cats", Value.vdict [("value", Value.vlist [Value.vdict [("x", Value.vint 1)]]),
      ("comment", Value.vstr "list[Dog]")])
    (DataclassBuilder.init ⟨"config"⟩) [] =
    Except.ok (⟨⟨"config"⟩, defaultImports ++ ["from src.config.dog import Dog"],
      ["cats: list[Dog]"], none⟩,
      [⟨⟨"dog"⟩, defaultImports, ["x: int"], none⟩]) := by
  show handleValue "src/config" "cats"
    (Value.vlist [Value.vdict [("x", Value.vint 1)]]) (some "list[Dog]") none
    (DataclassBuilder.init ⟨"config"⟩) [] = _
  rw [handleValue.eq_2, gen_cats_inner]
  rfl

theorem run_catsData :
    DataclassGenerator.generate_dataclass "src/config" ⟨"config"⟩ catsData [] =
      Except.ok (⟨⟨"config"⟩, defaultImports ++ ["from src.config.dog import Dog"],
        ["cats: list[Dog]"], none⟩,
        [⟨⟨"dog"⟩, defaultImports, ["x: int"], none⟩]) := by
  rw [generate_dataclass_eq]
  show genFields "src/config"
    [("cats", Value.vdict [("value", Value.vlist [Value.vdict [("x", Value.vint 1)]]),
      ("comment", Value.vstr "list[Dog]")])]
    (DataclassBuilder.init ⟨"config"⟩) [] = _
  rw [genFields_cons, step_cats_field]
  exact genFields_nil _ _ _

theorem step_dogs_x : stepEntry "src/config" ("x", Value.vint 1)
    (DataclassBuilder.init ⟨"dogs"⟩) [] =
    Except.ok (⟨⟨"dogs"⟩, defaultImports, ["x: int"], none⟩, []) := by
  show handleValue "src/config" "x" (Value.vint 1) none none
    (DataclassBuilder.init ⟨"dogs"⟩) [] = _
  rw [handleValue.eq_6 "src/config" "x" (Value.vint 1) none none
    (DataclassBuilder.init ⟨"dogs"⟩) []
    (fun l h => by cases h) (fun l t h => by cases h) (fun i h => by cases h)]
  rfl

theorem gen_dogs_inner : genFields "src/config" [("x", Value.vint 1)]
    (DataclassBuilder.init ⟨"dogs"⟩) [] =
    Except.ok (⟨⟨"dogs"⟩, defaultImports, ["x: int"], none⟩, []) := by
  rw [genFields_cons, step_dogs_x]
  exact genFields_nil _ _ _

theorem step_dogs_field : stepEntry "src/config"
    ("dogs", Value.vlist [Value.vdict [("x", Value.vint 1)]])
    (DataclassBuilder.init ⟨"config"⟩) [] =
    Except.ok (((DataclassBuilder.init ⟨"config"⟩).add_import "src/config"
      ⟨"dogs"⟩).add_parameter "dogs" ⟨"list", some ["Dogs"]⟩ none,
      [⟨⟨"dogs"⟩, defaultImports, ["x: int"], none⟩]) := by
  show handleValue "src/config" "dogs"
    (Value.vlist [Value.vdict [("x", Value.vint 1)]]) none none
    (DataclassBuilder.init ⟨"config"⟩) [] = _
  rw [handleValue.eq_2, gen_dogs_inner]
  rfl

theorem step_extra_a : stepEntry "src/config"
    ("a", Value.vdict [("value", Value.vint 1), ("extra", Value.vint 2)])
    (DataclassBuilder.init ⟨"config"⟩) [] =
    Except.ok (⟨⟨"config"⟩, defaultImports, ["a: int"], none⟩, []) := by
  show handleValue "src/config" "a" (Value.vint 1) none none
    (DataclassBuilder.init ⟨"config"⟩) [] = _
  rw [handleValue.eq_6 "src/config" "a" (Value.vint 1) none none
    (DataclassBuilder.init ⟨"config"⟩) []
    (fun l h => by cases h) (fun l t h => by cases h) (fun i h => by cases h)]
  rfl

theorem run_extraKeyData :
    DataclassGenerator.generate_dataclass "src/config" ⟨"config"⟩ extraKeyData [] =
      Except.ok (⟨⟨"config"⟩, defaultImports, ["a: int"], none⟩, []) := by
  rw [generate_dataclass_eq]
  show genFields "src/config"
    [("a", Value.vdict [("value", Value.vint 1), ("extra", Value.vint 2)])]
    (DataclassBuilder.init ⟨"config"⟩) [] = _
  rw [genFields_cons, step_extra_a]
  exact genFields_nil _ _ _

/-! ### The claims -/

/-- C1: for every map-valued field encountered during generation, the
generator recursively builds a nested record named from the field's key,
registers it in the global builder collection, adds an import edge from the
current record to the nested one, and types the field with the
comment-resolved descriptor when a comment is present, else with
`{base: PascalCase(key), params: none}`; in particular
`{server: {host: "x", port: 1}}` yields two records, the root referencing
`Server` with fields `host: str` and `port: int`, and an import edge from the
root to `Server`. -/
theorem C1_map_field_generation :
    (∀ (dest key : String) (raw : Value) (l : List (String × Value)) (tc dsc : Option String)
      (b br : DataclassBuilder) (bs bsr : List DataclassBuilder),
      metaOf raw = (Value.vdict l, tc, dsc) →
      stepEntry dest (key, raw) b bs = Except.ok (br, bsr) →
      ∃ nb bs1 ta,
        DataclassGenerator.generate_dataclass dest (Name.mk key) l bs = Except.ok (nb, bs1) ∧
        nb.name = Name.mk key ∧
        bsr = bs1 ++ [nb] ∧
        (if optTruthy tc = true then CommentTypeParser.parse tc = Except.ok ta
         else ta = ⟨(Name.mk key).to_pascal_case, none⟩) ∧
        br = (b.add_import dest (Name.mk key)).add_parameter (Name.mk key).to_snake_case ta dsc) ∧
    DataclassGenerator.generate_dataclass "src/config" ⟨"config"⟩ serverData [] =
      Except.ok (⟨⟨"config"⟩, defaultImports ++ ["from src.config.server import Server"],
        ["server: Server"], none⟩,
        [⟨⟨"server"⟩, defaultImports, ["host: str", "port: int"], none⟩]) := by
  constructor
  · intro dest key raw l tc dsc b br bs bsr hm hstep
    have hs : handleValue dest key (Value.vdict l) tc dsc b bs = Except.ok (br, bsr) := by
      have heq : stepEntry dest (key, raw) b bs =
          handleValue dest key (metaOf raw).1 (metaOf raw).2.1 (metaOf raw).2.2 b bs := rfl
      rw [heq, hm] at hstep
      exact hstep
    rw [handleValue.eq_1] at hs
    cases hg : genFields dest l (DataclassBuilder.init ⟨key⟩) bs with
    | error e => rw [hg] at hs; cases hs
    | ok p =>
      obtain ⟨nb, bs1⟩ := p
      rw [hg] at hs
      cases hp : (if optTruthy tc = true then CommentTypeParser.parse tc
          else Except.ok (⟨(Name.mk key).to_pascal_case, none⟩ : TypeAnnotation)) with
      | error e => rw [hp] at hs; cases hs
      | ok ta =>
        rw [hp] at hs
        cases hs
        refine ⟨nb, bs1, ta, ?_, ?_, rfl, ?_, rfl⟩
        · rw [generate_dataclass_eq]
          exact hg
        · exact (genFields_name hg).1.trans (by simp [DataclassBuilder.init])
        · cases htc : optTruthy tc with
          | true =>
            rw [htc, if_pos rfl] at hp
            rw [if_pos rfl]
            exact hp
          | false =>
            rw [htc, if_neg Bool.false_ne_true] at hp
            rw [if_neg Bool.false_ne_true]
            cases hp
            rfl
  · exact run_serverData

/-- C1 witness: the general statement applied at the `server` field of the
spec's nested-map example. -/
theorem C1_map_field_generation_witness :
    ∃ nb bs1 ta,
      DataclassGenerator.generate_dataclass "src/config" (Name.mk "server")
        [("host", Value.vstr "x"), ("port", Value.vint 1)] [] = Except.ok (nb, bs1) ∧
      nb.name = Name.mk "server" ∧
      ([⟨⟨"server"⟩, defaultImports, ["host: str", "port: int"], none⟩] :
        List DataclassBuilder) = bs1 ++ [nb] ∧
      (if optTruthy none = true then CommentTypeParser.parse none = Except.ok ta
       else ta = ⟨(Name.mk "server").to_pascal_case, none⟩) ∧
      (⟨⟨"config"⟩, defaultImports ++ ["from src.config.server import Server"],
        ["server: Server"], none⟩ : DataclassBuilder) =
        ((DataclassBuilder.init ⟨"config"⟩).add_import "src/config"
          (Name.mk "server")).add_parameter (Name.mk "server").to_snake_case ta none :=
  C1_map_field_generation.1 "src/config" "server"
    (Value.vdict [("host", Value.vstr "x"), ("port", Value.vint 1)])
    [("host", Value.vstr "x"), ("port", Value.vint 1)] none none
    (DataclassBuilder.init ⟨"config"⟩)
    ⟨⟨"config"⟩, defaultImports ++ ["from src.config.server import Server"],
      ["server: Server"], none⟩
    [] [⟨⟨"server"⟩, defaultImports, ["host: str", "port: int"], none⟩]
    rfl
    step_server_field

/-- C2: for every scalar field whose FieldEntry carries a non-empty comment,
the emitted Type Descriptor is the one resolved from the comment, never the
one inferred from the runtime value; in particular
`{a: {value: 1, comment: "# str"}}` produces field `a` typed `str`, not
`int`. -/
theorem C2_comment_overrides_value :
    (∀ (dest key : String) (raw v : Value) (tc dsc : Option String)
      (b br : DataclassBuilder) (bs bsr : List DataclassBuilder),
      metaOf raw = (v, tc, dsc) →
      isHandled v = false →
      optTruthy tc = true →
      stepEntry dest (key, raw) b bs = Except.ok (br, bsr) →
      ∃ ta, CommentTypeParser.parse tc = Except.ok ta ∧
        br = b.add_parameter (Name.mk key).to_snake_case ta dsc ∧
        bsr = bs) ∧
    DataclassGenerator.generate_dataclass "src/config" ⟨"config"⟩ commentOverrideData [] =
      Except.ok (⟨⟨"config"⟩, defaultImports, ["a: str"], none⟩, []) := by
  constructor
  · intro dest key raw v tc dsc b br bs bsr hm hscalar htc hstep
    have hs : handleValue dest key v tc dsc b bs = Except.ok (br, bsr) := by
      have heq : stepEntry dest (key, raw) b bs =
          handleValue dest key (metaOf raw).1 (metaOf raw).2.1 (metaOf raw).2.2 b bs := rfl
      rw [heq, hm] at hstep
      exact hstep
    clear hstep
    cases v
    case vdict l => simp [isHandled] at hscalar
    case vlist items => simp [isHandled] at hscalar
    all_goals
      simp only [handleValue] at hs
      rw [htc, if_pos rfl] at hs
      cases hpp : CommentTypeParser.parse tc with
      | error e => rw [hpp] at hs; cases hs
      | ok ta =>
        rw [hpp] at hs
        cases hs
        exact ⟨ta, rfl, rfl, rfl⟩
  · exact run_commentOverrideData

/-- C2 witness: the general statement applied at the spec's comment-override
example field. -/
theorem C2_comment_overrides_value_witness :
    ∃ ta, CommentTypeParser.parse (some "# str") = Except.ok ta ∧
      (⟨⟨"config"⟩, defaultImports, ["a: str"], none⟩ : DataclassBuilder) =
        (DataclassBuilder.init ⟨"config"⟩).add_parameter (Name.mk "a").to_snake_case ta none ∧
      ([] : List DataclassBuilder) = [] :=
  C2_comment_overrides_value.1 "src/config" "a"
    (Value.vdict [("value", Value.vint 1), ("comment", Value.vstr "# str")])
    (Value.vint 1) (some "# str") none
    (DataclassBuilder.init ⟨"config"⟩)
    ⟨⟨"config"⟩, defaultImports, ["a: str"], none⟩
    [] []
    rfl rfl rfl
    step_comment_a

/-- C3: the comment resolver strips the leading marker and surrounding
whitespace and scans for the bracketed identifier pattern over the bare
identifier pattern, the first successful match of either pattern winning;
empty or absent comments give the empty/unset descriptor, and a text with no
identifier-like token is a ParseError.  Stated as: the source's parser agrees
everywhere with `resolveFromCommentSpec`, the resolver as the spec words it
(`none` marking the ParseError). -/
theorem C3_comment_resolver_contract (o : Option String) :
    (CommentTypeParser.parse o).toOption = resolveFromCommentSpec o ∧
    CommentTypeParser.parse none = Except.ok ⟨"", none⟩ ∧
    CommentTypeParser.parse (some "") = Except.ok ⟨"", none⟩ :=
  ⟨parse_toOption_eq_spec o, rfl, rfl⟩

/-- C4: a non-empty comment with no identifier-like token makes the comment
resolver raise its ParseError, and any such error aborts the whole run: the
top-level `generate` yields the error and zero output units. -/
theorem C4_malformed_comment_aborts :
    (∀ c : String, c ≠ "" → (∀ ch ∈ (codeStrip c).data, isWordChar ch = false) →
      CommentTypeParser.parse (some c) =
        Except.error ("Failed to parse type annotation: " ++ codeStrip c)) ∧
    (∀ (dest : String) (data : List (String × Value)) (e : String),
      DataclassGenerator.generate_dataclass dest ⟨"config"⟩ data [] = Except.error e →
      DataclassGenerator.generate dest data = Except.error e) := by
  constructor
  · intro c hne hall
    have hemp : ¬ (c.isEmpty = true) := by
      intro he
      exact hne ((String.isEmpty_iff c).mp he)
    have hscan : scanMatch (codeStrip c).data = none := by
      have h0 := scanMatch_prefix hall ([] : List Char)
      rwa [List.append_nil] at h0
    simp only [CommentTypeParser.parse, if_neg hemp, hscan]
  · intro dest data e h
    unfold DataclassGenerator.generate
    rw [h]

/-- C4 witness: the malformed annotation `"###"` fails with the ParseError,
and the run over `{a: {value: 1, comment: "###"}}` aborts with that error and
produces no output units. -/
theorem C4_malformed_comment_aborts_witness :
    CommentTypeParser.parse (some "###") =
      Except.error ("Failed to parse type annotation: " ++ codeStrip "###") ∧
    DataclassGenerator.generate "src/config" malformedData =
      Except.error "Failed to parse type annotation: " :=
  ⟨C4_malformed_comment_aborts.1 "###" (by decide) (by decide),
   C4_malformed_comment_aborts.2 "src/config" malformedData
     "Failed to parse type annotation: "
     run_malformedData⟩

/-- C5: for a non-empty sequence field whose first element is a map and whose
comment resolves to a parametric type with base `list`, the nested record
built from the first element is renamed to the comment's first type parameter
lower-cased, the import edge uses that renamed record, and the field is typed
with the comment's annotation; in particular an `events` field with comment
`list[Event]` and value `[{name: "n"}]` yields a nested record named `event`
with field `name: str` and a root field `events` typed `list[Event]`. -/
theorem C5_list_rename_from_annotation :
    (∀ (dest key : String) (raw : Value) (l : List (String × Value)) (tail : List Value)
      (tc dsc : Option String) (ta : TypeAnnotation) (p : String) (ps : List String)
      (b br : DataclassBuilder) (bs bsr : List DataclassBuilder),
      metaOf raw = (Value.vlist (Value.vdict l :: tail), tc, dsc) →
      optTruthy tc = true →
      CommentTypeParser.parse tc = Except.ok ta →
      ta.generic_type = "list" →
      ta.type_params = some (p :: ps) →
      stepEntry dest (key, raw) b bs = Except.ok (br, bsr) →
      ∃ nb bs1,
        DataclassGenerator.generate_dataclass dest (Name.mk key) l bs = Except.ok (nb, bs1) ∧
        bsr = bs1 ++ [{ nb with name := Name.mk (lowerStr p) }] ∧
        br = (b.add_import dest (Name.mk (lowerStr p))).add_parameter
          (Name.mk key).to_snake_case ta dsc) ∧
    DataclassGenerator.generate_dataclass "src/config" ⟨"config"⟩ eventsData [] =
      Except.ok (⟨⟨"config"⟩, defaultImports ++ ["from src.config.event import Event"],
        ["events: list[Event]"], none⟩,
        [⟨⟨"event"⟩, defaultImports, ["name: str"], none⟩]) := by
  constructor
  · intro dest key raw l tail tc dsc ta p ps b br bs bsr hm htc hparse hbase hparams hstep
    have hs : handleValue dest key (Value.vlist (Value.vdict l :: tail)) tc dsc b bs =
        Except.ok (br, bsr) := by
      have heq : stepEntry dest (key, raw) b bs =
          handleValue dest key (metaOf raw).1 (metaOf raw).2.1 (metaOf raw).2.2 b bs := rfl
      rw [heq, hm] at hstep
      exact hstep
    clear hstep
    rw [handleValue.eq_2] at hs
    cases hg : genFields dest l (DataclassBuilder.init ⟨key⟩) bs with
    | error e => rw [hg] at hs; cases hs
    | ok pq =>
      obtain ⟨nb, bs1⟩ := pq
      rw [hg, htc, if_pos rfl, hparse] at hs
      simp only [hparams, htc, hbase, beq_self_eq_true, Bool.and_self, if_pos] at hs
      cases hs
      refine ⟨nb, bs1, ?_, rfl, rfl⟩
      rw [generate_dataclass_eq]
      exact hg
  · exact run_eventsData

/-- C5 witness: the general statement applied at the spec's list-of-maps
example field. -/
theorem C5_list_rename_from_annotation_witness :
    ∃ nb bs1,
      DataclassGenerator.generate_dataclass "src/config" (Name.mk "events")
        [("name", Value.vstr "n")] [] = Except.ok (nb, bs1) ∧
      ([⟨⟨"event"⟩, defaultImports, ["name: str"], none⟩] : List DataclassBuilder) =
        bs1 ++ [{ nb with name := Name.mk (lowerStr "Event") }] ∧
      (⟨⟨"config"⟩, defaultImports ++ ["from src.config.event import Event"],
        ["events: list[Event]"], none⟩ : DataclassBuilder) =
        ((DataclassBuilder.init ⟨"config"⟩).add_import "src/config"
          (Name.mk (lowerStr "Event"))).add_parameter (Name.mk "events").to_snake_case
          ⟨"list", some ["Event"]⟩ none :=
  C5_list_rename_from_annotation.1 "src/config" "events"
    (Value.vdict [("value", Value.vlist [Value.vdict [("name", Value.vstr "n")]]),
      ("comment", Value.vstr "list[Event]")])
    [("name", Value.vstr "n")] [] (some "list[Event]") none
    ⟨"list", some ["Event"]⟩ "Event" []
    (DataclassBuilder.init ⟨"config"⟩)
    ⟨⟨"config"⟩, defaultImports ++ ["from src.config.event import Event"],
      ["events: list[Event]"], none⟩
    [] [⟨⟨"event"⟩, defaultImports, ["name: str"], none⟩]
    rfl rfl rfl rfl rfl
    step_events_field

/-- C6: a sequence field that is empty or whose first element is a scalar,
with no comment, is typed `list[T]` with `T` the first element's scalar type
name or `Any` for the empty sequence, and no nested record is created; in
particular `{tags: []}` produces field `tags` typed `list[Any]`. -/
theorem C6_scalar_or_empty_list :
    (∀ (dest key : String) (raw : Value) (items : List Value) (dsc : Option String)
      (b : DataclassBuilder) (bs : List DataclassBuilder),
      metaOf raw = (Value.vlist items, none, dsc) →
      (items = [] ∨ ∃ v0 tl, items = v0 :: tl ∧ isHandled v0 = false) →
      stepEntry dest (key, raw) b bs =
        Except.ok (b.add_parameter (Name.mk key).to_snake_case
          ⟨"list", some [match items with | [] => "Any" | v0 :: _ => pyTypeName v0]⟩ dsc, bs)) ∧
    DataclassGenerator.generate_dataclass "src/config" ⟨"config"⟩ tagsData [] =
      Except.ok (⟨⟨"config"⟩, defaultImports, ["tags: list[Any]"], none⟩, []) := by
  constructor
  · intro dest key raw items dsc b bs hm hfirst
    have heq : stepEntry dest (key, raw) b bs =
        handleValue dest key (metaOf raw).1 (metaOf raw).2.1 (metaOf raw).2.2 b bs := rfl
    rw [heq, hm]
    rcases hfirst with rfl | ⟨v0, tl, rfl, hv0⟩
    · rw [handleValue.eq_4]
    · rw [handleValue.eq_5]
      intro l2 t1 hh
      injection hh with h1 h2
      rw [h1] at hv0
      simp [isHandled] at hv0
  · exact run_tagsData

/-- C6 witness: the general statement applied at the spec's empty-list
example field. -/
theorem C6_scalar_or_empty_list_witness :
    stepEntry "src/config" ("tags", Value.vlist []) (DataclassBuilder.init ⟨"config"⟩) [] =
      Except.ok ((DataclassBuilder.init ⟨"config"⟩).add_parameter
        (Name.mk "tags").to_snake_case ⟨"list", some ["Any"]⟩ none, []) :=
  C6_scalar_or_empty_list.1 "src/config" "tags" (Value.vlist []) [] none
    (DataclassBuilder.init ⟨"config"⟩) [] rfl (Or.inl rfl)

/-- C7: the serialized text of a builder is a deterministic function of its
logical content: imports are a deduplicated set (re-inserting a member is a
no-op, insertion preserves distinctness) emitted in sorted order at build
time — so `build` does not depend on the order in which the import set is
enumerated — and fields are emitted in insertion order (they enter `build`
as the `parameters` list itself). -/
theorem C7_deterministic_build :
    (∀ b1 b2 : DataclassBuilder, b1.name = b2.name → b1.parameters = b2.parameters →
      b1.docstring = b2.docstring → b1.imports.Perm b2.imports → b1.build = b2.build) ∧
    (∀ (s : List String) (i : String), i ∈ s → insertImport s i = s) ∧
    (∀ (s : List String) (i : String), i ∉ s → insertImport s i = s ++ [i]) ∧
    (∀ (s : List String) (i : String), s.Nodup → (insertImport s i).Nodup) := by
  refine ⟨?_, ?_, ?_, ?_⟩
  · intro b1 b2 hn hp hd hperm
    have hsorted1 := List.sorted_insertionSort (fun x y : String => strLe x y = true) b1.imports
    have hsorted2 := List.sorted_insertionSort (fun x y : String => strLe x y = true) b2.imports
    have hpp : List.Perm (List.insertionSort (fun x y : String => strLe x y = true) b1.imports)
        (List.insertionSort (fun x y : String => strLe x y = true) b2.imports) :=
      (List.perm_insertionSort _ _).trans (hperm.trans (List.perm_insertionSort _ _).symm)
    have hsorteq := List.eq_of_perm_of_sorted hpp hsorted1 hsorted2
    unfold DataclassBuilder.build
    rw [hsorteq, hn, hp, hd]
  · intro s i h
    simp [insertImport, h]
  · intro s i h
    simp [insertImport, h]
  · intro s i hnd
    by_cases h : i ∈ s
    · simpa [insertImport, h] using hnd
    · simp [insertImport, h, List.nodup_append, hnd]

/-- C7 witness: two builders whose import sets are permutations of each other
serialize identically, and set insertion deduplicates. -/
theorem C7_deterministic_build_witness :
    DataclassBuilder.build ⟨⟨"config"⟩, ["from b import B", "from a import A"], ["x: int"], none⟩ =
      DataclassBuilder.build ⟨⟨"config"⟩, ["from a import A", "from b import B"], ["x: int"], none⟩ ∧
    insertImport ["from a import A"] "from a import A" = ["from a import A"] ∧
    insertImport ["from a import A"] "from b import B" =
      ["from a import A", "from b import B"] ∧
    (insertImport ["from a import A"] "from b import B").Nodup :=
  ⟨C7_deterministic_build.1
      ⟨⟨"config"⟩, ["from b import B", "from a import A"], ["x: int"], none⟩
      ⟨⟨"config"⟩, ["from a import A", "from b import B"], ["x: int"], none⟩
      rfl rfl rfl (List.Perm.swap "from a import A" "from b import B" []),
   C7_deterministic_build.2.1 ["from a import A"] "from a import A" (by decide),
   C7_deterministic_build.2.2.1 ["from a import A"] "from b import B" (by decide),
   C7_deterministic_build.2.2.2 ["from a import A"] "from b import B" (by decide)⟩

/-- C8 counterexample: singularization by dropping a trailing pluralizing
character does not happen; for the field `cats` with comment `list[Dog]` and
a map element, the element record is named `dog` (the annotation's first
parameter lower-cased), not `cat` (the field name minus its trailing `s`). -/
theorem C8_no_trailing_char_drop :
    DataclassGenerator.generate_dataclass "src/config" ⟨"config"⟩ catsData [] =
      Except.ok (⟨⟨"config"⟩, defaultImports ++ ["from src.config.dog import Dog"],
        ["cats: list[Dog]"], none⟩,
        [⟨⟨"dog"⟩, defaultImports, ["x: int"], none⟩]) ∧
    Name.mk "dog" ≠ Name.mk "cat" := by
  constructor
  · exact run_catsData
  · decide

/-- C8 amended: when a sequence-element record gets a name distinct from the
field name, that name is a new `Name` holding the comment's first type
parameter lower-cased (never obtained by dropping a trailing character from
the field's `Name`); without a comment the element record simply keeps the
`Name` built from the field's key, and the field's own identifier always
stays the original key. -/
theorem C8_element_record_naming :
    (∀ (dest key : String) (raw : Value) (l : List (String × Value)) (tail : List Value)
      (tc dsc : Option String) (ta : TypeAnnotation) (p : String) (ps : List String)
      (b br : DataclassBuilder) (bs bsr : List DataclassBuilder),
      metaOf raw = (Value.vlist (Value.vdict l :: tail), tc, dsc) →
      optTruthy tc = true →
      CommentTypeParser.parse tc = Except.ok ta →
      ta.generic_type = "list" →
      ta.type_params = some (p :: ps) →
      stepEntry dest (key, raw) b bs = Except.ok (br, bsr) →
      ∃ nb bs1,
        DataclassGenerator.generate_dataclass dest (Name.mk key) l bs = Except.ok (nb, bs1) ∧
        nb.name = Name.mk key ∧
        bsr = bs1 ++ [{ nb with name := Name.mk (lowerStr p) }] ∧
        br.parameters = b.parameters ++
          [(Name.mk key).to_snake_case ++ ": " ++ ta.to_paramterized_type
            ++ (match dsc with
                | some d => if d.isEmpty then "" else "  # " ++ d
                | none => "")]) ∧
    (∀ (dest key : String) (raw : Value) (l : List (String × Value)) (tail : List Value)
      (dsc : Option String) (b br : DataclassBuilder) (bs bsr : List DataclassBuilder),
      metaOf raw = (Value.vlist (Value.vdict l :: tail), none, dsc) →
      stepEntry dest (key, raw) b bs = Except.ok (br, bsr) →
      ∃ nb bs1,
        DataclassGenerator.generate_dataclass dest (Name.mk key) l bs = Except.ok (nb, bs1) ∧
        nb.name = Name.mk key ∧
        bsr = bs1 ++ [nb]) := by
  constructor
  · intro dest key raw l tail tc dsc ta p ps b br bs bsr hm htc hparse hbase hparams hstep
    have hs : handleValue dest key (Value.vlist (Value.vdict l :: tail)) tc dsc b bs =
        Except.ok (br, bsr) := by
      have heq : stepEntry dest (key, raw) b bs =
          handleValue dest key (metaOf raw).1 (metaOf raw).2.1 (metaOf raw).2.2 b bs := rfl
      rw [heq, hm] at hstep
      exact hstep
    clear hstep
    rw [handleValue.eq_2] at hs
    cases hg : genFields dest l (DataclassBuilder.init ⟨key⟩) bs with
    | error e => rw [hg] at hs; cases hs
    | ok pq =>
      obtain ⟨nb, bs1⟩ := pq
      rw [hg, htc, if_pos rfl, hparse] at hs
      simp only [hparams, htc, hbase, beq_self_eq_true, Bool.and_self, if_pos] at hs
      cases hs
      refine ⟨nb, bs1, ?_, ?_, rfl, ?_⟩
      · rw [generate_dataclass_eq]
        exact hg
      · exact (genFields_name hg).1.trans (by simp [DataclassBuilder.init])
      · cases dsc with
        | none => simp [DataclassBuilder.add_parameter, DataclassBuilder.add_import]
        | some d =>
          by_cases hd : d.isEmpty <;>
            simp [DataclassBuilder.add_parameter, DataclassBuilder.add_import, hd,
              str_append_assoc]
  · intro dest key raw l tail dsc b br bs bsr hm hstep
    have hs : handleValue dest key (Value.vlist (Value.vdict l :: tail)) none dsc b bs =
        Except.ok (br, bsr) := by
      have heq : stepEntry dest (key, raw) b bs =
          handleValue dest key (metaOf raw).1 (metaOf raw).2.1 (metaOf raw).2.2 b bs := rfl
      rw [heq, hm] at hstep
      exact hstep
    clear hstep
    rw [handleValue.eq_2] at hs
    cases hg : genFields dest l (DataclassBuilder.init ⟨key⟩) bs with
    | error e => rw [hg] at hs; cases hs
    | ok pq =>
      obtain ⟨nb, bs1⟩ := pq
      rw [hg] at hs
      simp only [optTruthy, Bool.false_eq_true, if_false, Bool.false_and] at hs
      cases hs
      refine ⟨nb, bs1, ?_, ?_, ?_⟩
      · rw [generate_dataclass_eq]
        exact hg
      · exact (genFields_name hg).1.trans (by simp [DataclassBuilder.init])
      · cases htp : (⟨"list", some [(Name.mk key).to_pascal_case]⟩ : TypeAnnotation).type_params
        · rfl
        · rfl

/-- C8 witness: the general statements applied at a `cats`/`list[Dog]` field
(annotation-driven rename) and at a comment-less `dogs` list-of-maps field
(no rename at all). -/
theorem C8_element_record_naming_witness :
    (∃ nb bs1,
      DataclassGenerator.generate_dataclass "src/config" (Name.mk "cats")
        [("x", Value.vint 1)] [] = Except.ok (nb, bs1) ∧
      nb.name = Name.mk "cats" ∧
      ([⟨⟨"dog"⟩, defaultImports, ["x: int"], none⟩] : List DataclassBuilder) =
        bs1 ++ [{ nb with name := Name.mk (lowerStr "Dog") }] ∧
      (⟨⟨"config"⟩, defaultImports ++ ["from src.config.dog import Dog"],
        ["cats: list[Dog]"], none⟩ : DataclassBuilder).parameters =
        (DataclassBuilder.init ⟨"config"⟩).parameters ++
          [(Name.mk "cats").to_snake_case ++ ": "
            ++ (⟨"list", some ["Dog"]⟩ : TypeAnnotation).to_paramterized_type
            ++ (match (none : Option String) with
                | some d => if d.isEmpty then "" else "  # " ++ d
                | none => "")]) ∧
    (∃ nb bs1,
      DataclassGenerator.generate_dataclass "src/config" (Name.mk "dogs")
        [("x", Value.vint 1)] [] = Except.ok (nb, bs1) ∧
      nb.name = Name.mk "dogs" ∧
      ([⟨⟨"dogs"⟩, defaultImports, ["x: int"], none⟩] : List DataclassBuilder) =
        bs1 ++ [nb]) :=
  ⟨C8_element_record_naming.1 "src/config" "cats"
      (Value.vdict [("value", Value.vlist [Value.vdict [("x", Value.vint 1)]]),
        ("comment", Value.vstr "list[Dog]")])
      [("x", Value.vint 1)] [] (some "list[Dog]") none
      ⟨"list", some ["Dog"]⟩ "Dog" []
      (DataclassBuilder.init ⟨"config"⟩)
      ⟨⟨"config"⟩, defaultImports ++ ["from src.config.dog import Dog"],
        ["cats: list[Dog]"], none⟩
      [] [⟨⟨"dog"⟩, defaultImports, ["x: int"], none⟩]
      rfl rfl rfl rfl rfl
      step_cats_field,
   C8_element_record_naming.2 "src/config" "dogs"
      (Value.vlist [Value.vdict [("x", Value.vint 1)]])
      [("x", Value.vint 1)] [] none
      (DataclassBuilder.init ⟨"config"⟩)
      ((DataclassBuilder.init ⟨"config"⟩).add_import "src/config"
        ⟨"dogs"⟩ |>.add_parameter "dogs" ⟨"list", some ["Dogs"]⟩ none)
      [] [⟨⟨"dogs"⟩, defaultImports, ["x: int"], none⟩]
      rfl
      step_dogs_field⟩

/-- C9: `build` concatenates the sorted import block, a blank line, the
record header, an optional docstring line, then the parameter block, and for
every builder holding at least one parameter it returns this serialized text
without failing (it is a total function; in particular failure happens only
with zero parameters, where the emitted class body is the bare indent). -/
theorem C9_build_structure (b : DataclassBuilder) (h : b.parameters ≠ []) :
    b.build =
      pyJoin "\n" (List.insertionSort (fun x y => strLe x y = true) b.imports)
        ++ "\n\n"
        ++ pyJoin "\n"
          (["@dataclass", "class " ++ b.name.to_pascal_case ++ ":"]
            ++ (match b.docstring with
                | some d => if d.isEmpty then [] else ["    \"\"\"" ++ d ++ "\"\"\""]
                | none => [])
            ++ ["    " ++ pyJoin "\n    " b.parameters]) := by
  unfold DataclassBuilder.build
  cases hd : b.docstring with
  | none => simp
  | some d => by_cases he : d.isEmpty <;> simp [he]

/-- C9 witness: the structure equation at a one-parameter builder. -/
theorem C9_build_structure_witness :
    DataclassBuilder.build ⟨⟨"config"⟩, defaultImports, ["a: int"], none⟩ =
      pyJoin "\n" (List.insertionSort (fun x y => strLe x y = true)
        (⟨⟨"config"⟩, defaultImports, ["a: int"], none⟩ : DataclassBuilder).imports)
        ++ "\n\n"
        ++ pyJoin "\n"
          (["@dataclass", "class "
              ++ (⟨⟨"config"⟩, defaultImports, ["a: int"], none⟩ : DataclassBuilder).name.to_pascal_case
              ++ ":"]
            ++ (match (⟨⟨"config"⟩, defaultImports, ["a: int"], none⟩ : DataclassBuilder).docstring with
                | some d => if d.isEmpty then [] else ["    \"\"\"" ++ d ++ "\"\"\""]
                | none => [])
            ++ ["    " ++ pyJoin "\n    "
                (⟨⟨"config"⟩, defaultImports, ["a: int"], none⟩ : DataclassBuilder).parameters]) :=
  C9_build_structure ⟨⟨"config"⟩, defaultImports, ["a: int"], none⟩ (by simp)

/-- C10: a map value containing a `"value"` key is unwrapped as FieldEntry
metadata — the field's value becomes its `"value"` member, `"comment"` and
`"description"` are read as metadata, every other key is dropped, and for a
scalar member the map itself is never built into a nested record — while a
map lacking a `"value"` key is plain nested data with no metadata. -/
theorem C10_metadata_unwrap :
    (∀ (dest key : String) (l1 l2 : List (String × Value)) (w : Value)
      (b : DataclassBuilder) (bs : List DataclassBuilder),
      dictLookup l1 "value" = some w → dictLookup l2 "value" = some w →
      dictLookup l1 "comment" = dictLookup l2 "comment" →
      dictLookup l1 "description" = dictLookup l2 "description" →
      stepEntry dest (key, Value.vdict l1) b bs = stepEntry dest (key, Value.vdict l2) b bs) ∧
    (∀ (dest key : String) (l : List (String × Value)) (w : Value)
      (b : DataclassBuilder) (bs : List DataclassBuilder),
      dictLookup l "value" = some w → isHandled w = false →
      optTruthy (strOf (dictLookup l "comment")) = false →
      stepEntry dest (key, Value.vdict l) b bs =
        Except.ok (b.add_parameter (Name.mk key).to_snake_case (ValueTypeParser.parse w)
          (strOf (dictLookup l "description")), bs)) ∧
    (∀ l : List (String × Value), dictLookup l "value" = none →
      metaOf (Value.vdict l) = (Value.vdict l, none, none)) ∧
    DataclassGenerator.generate_dataclass "src/config" ⟨"config"⟩ extraKeyData [] =
      Except.ok (⟨⟨"config"⟩, defaultImports, ["a: int"], none⟩, []) := by
  refine ⟨?_, ?_, ?_, ?_⟩
  · intro dest key l1 l2 w b bs h1 h2 hcom hdesc
    have hm1 : metaOf (Value.vdict l1) =
        (w, strOf (dictLookup l1 "comment"), strOf (dictLookup l1 "description")) := by
      simp [metaOf, h1]
    have hm2 : metaOf (Value.vdict l2) =
        (w, strOf (dictLookup l2 "comment"), strOf (dictLookup l2 "description")) := by
      simp [metaOf, h2]
    have heq1 : stepEntry dest (key, Value.vdict l1) b bs =
        handleValue dest key (metaOf (Value.vdict l1)).1 (metaOf (Value.vdict l1)).2.1
          (metaOf (Value.vdict l1)).2.2 b bs := rfl
    have heq2 : stepEntry dest (key, Value.vdict l2) b bs =
        handleValue dest key (metaOf (Value.vdict l2)).1 (metaOf (Value.vdict l2)).2.1
          (metaOf (Value.vdict l2)).2.2 b bs := rfl
    rw [heq1, heq2, hm1, hm2, hcom, hdesc]
  · intro dest key l w b bs hv hscalar hfalse
    have hm : metaOf (Value.vdict l) =
        (w, strOf (dictLookup l "comment"), strOf (dictLookup l "description")) := by
      simp [metaOf, hv]
    have heq : stepEntry dest (key, Value.vdict l) b bs =
        handleValue dest key (metaOf (Value.vdict l)).1 (metaOf (Value.vdict l)).2.1
          (metaOf (Value.vdict l)).2.2 b bs := rfl
    rw [heq, hm]
    cases w
    case vdict l2 => simp [isHandled] at hscalar
    case vlist items => simp [isHandled] at hscalar
    all_goals
      simp only [handleValue]
      rw [hfalse, if_neg Bool.false_ne_true]
  · intro l h
    simp [metaOf, h]
  · exact run_extraKeyData

/-- C10 witness: the unwrap statements at `{a: {value: 1, extra: 2}}` and its
extra-key-free counterpart. -/
theorem C10_metadata_unwrap_witness :
    stepEntry "src/config" ("a", Value.vdict [("value", Value.vint 1), ("extra", Value.vint 2)])
        (DataclassBuilder.init ⟨"config"⟩) [] =
      stepEntry "src/config" ("a", Value.vdict [("value", Value.vint 1)])
        (DataclassBuilder.init ⟨"config"⟩) [] ∧
    stepEntry "src/config" ("a", Value.vdict [("value", Value.vint 1), ("extra", Value.vint 2)])
        (DataclassBuilder.init ⟨"config"⟩) [] =
      Except.ok ((DataclassBuilder.init ⟨"config"⟩).add_parameter
        (Name.mk "a").to_snake_case (ValueTypeParser.parse (Value.vint 1))
        (strOf (dictLookup [("value", Value.vint 1), ("extra", Value.vint 2)] "description")),
        []) ∧
    metaOf (Value.vdict [("x", Value.vint 1)]) = (Value.vdict [("x", Value.vint 1)], none, none) :=
  ⟨C10_metadata_unwrap.1 "src/config" "a"
      [("value", Value.vint 1), ("extra", Value.vint 2)] [("value", Value.vint 1)]
      (Value.vint 1) (DataclassBuilder.init ⟨"config"⟩) [] rfl rfl rfl rfl,
   C10_metadata_unwrap.2.1 "src/config" "a"
      [("value", Value.vint 1), ("extra", Value.vint 2)]
      (Value.vint 1) (DataclassBuilder.init ⟨"config"⟩) [] rfl rfl rfl,
   C10_metadata_unwrap.2.2.1 [("x", Value.vint 1)] rfl⟩
